import Mathlib

/-!
Verification development for the guncol backend's region-recoloring service
(`backend/app/services/recoloring_service.py`, surfaced through the
`/recolor-image/` endpoint of `backend/app/main.py`).

The Python service is shallowly embedded here:

* `hex_to_hsl` mirrors the Python `hex_to_hsl`: it strips leading `#`
  characters, splits the remainder into `len // 3`-wide chunks exactly as the
  Python `range(0, h_len, h_len // 3)` slicing does, parses each chunk with
  base-16 integer parsing, reverses the channel tuple (RGB to BGR), converts
  the channels through `np.uint8` (NumPy 1.x modular wrap-around, `% 256`),
  and converts the resulting 1x1 BGR pixel to HSV with the OpenCV default
  `cv2.COLOR_BGR2HSV` convention (hue range 0..179).  The intermediate
  `COLOR_BGR2HSV_FULL` conversion in the Python source is dead code (its
  result is unused) and is omitted.  Base-16 parsing is modelled for plain
  unsigned hex-digit strings, the only forms reachable from color payloads.

* `bgr2hsv` and `hsv2bgr` model OpenCV's 8-bit `COLOR_BGR2HSV` and
  `COLOR_HSV2BGR` conversions: value = max channel, saturation =
  (v - min) * 255 / v rounded, hue = (sector formula) / 2 in 0..179, and the
  standard sector-based reconstruction, with rounding to nearest made
  explicit through `rnd`.

* `recolor_segment_hsv` mirrors the Python function of the same name over an
  explicit storage state (`Store`): filename lookup (`os.path.exists` /
  `cv2.imread` returning `None` are the `none` / `Blob.bad` cases), the
  dimension guard, the `astype(bool)` mask coercion, the BGR->HSV
  conversion, the per-pixel hue/saturation overwrite loop, the HSV->BGR
  conversion back, and the final `cv2.imwrite` overwrite, with each Python
  `raise` site mapped to a distinct `Err` constructor (distinct exception
  type / message in the source).

Images are lists of pixel rows; NumPy arrays are rectangular, which is
carried as the explicit `isRect` hypothesis where a theorem needs it.
-/

/-- Round `num / den` to nearest (halves up), the explicit form of the
rounding OpenCV applies in its 8-bit color conversions. -/
def rnd (num den : Nat) : Nat := (2 * num + den) / (2 * den)

/-- A BGR pixel as stored by OpenCV (channel order blue, green, red). -/
structure BGR where
  b : Nat
  g : Nat
  r : Nat
deriving DecidableEq, Repr

/-- An HSV pixel in OpenCV's default 8-bit convention (h in 0..179). -/
structure HSV where
  h : Nat
  s : Nat
  v : Nat
deriving DecidableEq, Repr

/-- OpenCV 8-bit `COLOR_BGR2HSV`: value is the max channel, saturation is
`(v - min) * 255 / v` rounded, hue is the sector formula halved into
0..179.  The sector tests mirror OpenCV's priority `v == r`, then `v == g`,
then `v == b`; `h6` is the hue measured in units of `d / 30` degrees. -/
def bgr2hsv (p : BGR) : HSV :=
  let v := max p.b (max p.g p.r)
  let mn := min p.b (min p.g p.r)
  let d := v - mn
  let s := if v = 0 then 0 else rnd (255 * d) v
  let h6 :=
    if v = p.r then (if p.b ≤ p.g then p.g - p.b else 6 * d - (p.b - p.g))
    else if v = p.g then 2 * d + p.b - p.r
    else 4 * d + p.r - p.g
  let h := if d = 0 then 0 else rnd (30 * h6) d % 180
  ⟨h, s, v⟩

/-- OpenCV 8-bit `COLOR_HSV2BGR`: sector decomposition of the hue (each
sector spans 30 hue units), with the three interpolants `pv`, `qv`, `tv`
written over the common denominators `255` and `255 * 30 = 7650`. -/
def hsv2bgr (q : HSV) : BGR :=
  let sector := q.h / 30 % 6
  let f := q.h % 30
  let pv := rnd (q.v * (255 - q.s)) 255
  let qv := rnd (q.v * (7650 - q.s * f)) 7650
  let tv := rnd (q.v * (7650 - q.s * (30 - f))) 7650
  if sector = 0 then ⟨pv, tv, q.v⟩
  else if sector = 1 then ⟨pv, q.v, qv⟩
  else if sector = 2 then ⟨tv, q.v, pv⟩
  else if sector = 3 then ⟨q.v, qv, pv⟩
  else if sector = 4 then ⟨q.v, pv, tv⟩
  else ⟨qv, pv, q.v⟩

/-- The distinct failure conditions raised by the service, one constructor
per `raise` site (distinct exception type or message in the Python source):
`fileNotFound` is the `FileNotFoundError` (ImageNotFound), `couldNotRead`
the `ValueError` for an undecodable image (ImageDecodeError), `dimMismatch`
the `ValueError` for mask/image shape disagreement (DimensionMismatch),
`rangeStepZero` the `ValueError` raised by `range(0, n, 0)` for a stripped
hex string shorter than 3, `intParse` the `ValueError` raised by
`int(chunk, 16)` on a non-hex chunk (InvalidColorFormat), and
`cvBadChannels` the `cv2.error` raised by `cvtColor` when the parsed tuple
does not have exactly 3 channels. -/
inductive Err where
  | fileNotFound
  | couldNotRead
  | dimMismatch
  | rangeStepZero
  | intParse
  | cvBadChannels
deriving DecidableEq, Repr

/-- One hexadecimal digit, as accepted by Python base-16 parsing. -/
def hexDigit (c : Char) : Option Nat :=
  if '0' ≤ c ∧ c ≤ '9' then some (c.toNat - '0'.toNat)
  else if 'a' ≤ c ∧ c ≤ 'f' then some (c.toNat - 'a'.toNat + 10)
  else if 'A' ≤ c ∧ c ≤ 'F' then some (c.toNat - 'A'.toNat + 10)
  else none

/-- Python `int(s, 16)` on a plain unsigned chunk: fails on the empty string
and on any character that is not a hexadecimal digit. -/
def hexVal (cs : List Char) : Option Nat :=
  if cs.isEmpty then none
  else cs.foldlM (fun acc c => (hexDigit c).map (fun d => 16 * acc + d)) 0

/-- The slice start offsets produced by Python `range(0, n, step)` for
`step > 0`: `0, step, 2 * step, ...` below `n`. -/
def chunkIndices (n step : Nat) : List Nat :=
  (List.range ((n + step - 1) / step)).map (fun i => i * step)

/-- The channel-parsing stage of the Python `hex_to_hsl`: strip leading `#`
characters, set `step = len // 3`, and parse every slice `s[i : i + step]`
for `i in range(0, len, step)` with `int(-, 16)`.  `step = 0` (stripped
length below 3) reproduces the `ValueError` of a zero-step `range`; a
non-hex chunk reproduces the `ValueError` of `int`. -/
def hexChannels (hex_color : String) : Except Err (List Nat) :=
  let s := hex_color.toList.dropWhile (fun c => c = '#')
  let n := s.length
  let step := n / 3
  if step = 0 then .error .rangeStepZero
  else
    match (chunkIndices n step).mapM (fun i => hexVal ((s.drop i).take step)) with
    | none => .error .intParse
    | some rgb => .ok rgb

/-- The Python `hex_to_hsl`: parse the channels, reverse the tuple (RGB to
BGR), push each channel through `np.uint8` (modular wrap, NumPy 1.x), and
convert the 1x1 BGR pixel with `cv2.COLOR_BGR2HSV`.  A parsed tuple whose
length is not 3 makes `cvtColor` raise (`cvBadChannels`). -/
def hex_to_hsl (hex_color : String) : Except Err HSV :=
  match hexChannels hex_color with
  | .error e => .error e
  | .ok rgb =>
    match rgb with
    | [r0, g0, b0] => .ok (bgr2hsv ⟨b0 % 256, g0 % 256, r0 % 256⟩)
    | _ => .error .cvBadChannels

instance [DecidableEq ε] [DecidableEq α] : DecidableEq (Except ε α) := fun x y =>
  match x, y with
  | .error a, .error b => if h : a = b then isTrue (by rw [h]) else isFalse (by simp [h])
  | .ok a, .ok b => if h : a = b then isTrue (by rw [h]) else isFalse (by simp [h])
  | .error _, .ok _ => isFalse (by simp)
  | .ok _, .error _ => isFalse (by simp)

/-- An image raster: rows of BGR pixels. -/
abbrev Image := List (List BGR)

/-- Bytes stored under a filename: either a decodable raster (`img`) or
bytes `cv2.imread` cannot decode, for which it returns `None` (`bad`). -/
inductive Blob where
  | img (i : Image)
  | bad
deriving DecidableEq

/-- The image store: the uploaded-images directory, a map from path to
stored bytes. -/
abbrev Store := String → Option Blob

/-- `cv2.imwrite`: overwrite the bytes stored at one path (PNG encoding is
lossless, so the stored raster is kept exactly). -/
def updateStore (st : Store) (k : String) (bl : Blob) : Store :=
  fun q => if q = k then some bl else st q

/-- NumPy `arr.shape[1]` for a rectangular 2D array given by rows. -/
def width : List (List α) → Nat
  | [] => 0
  | row :: _ => row.length

/-- Rectangularity: every row has the common width.  NumPy 2D arrays
satisfy this by construction. -/
def isRect (l : List (List α)) : Prop := ∀ row ∈ l, row.length = width l

instance (l : List (List α)) : Decidable (isRect l) :=
  inferInstanceAs (Decidable (∀ row ∈ l, row.length = width l))

/-- `mask.astype(bool)`: a numeric mask entry is coerced to its
zero/nonzero truth value.  (For a mask already of dtype bool the Python
code skips the call, which coincides with this map on 0/1 entries.) -/
def maskToBool (mask : List (List Int)) : List (List Bool) :=
  mask.map (List.map (fun x => decide (x ≠ 0)))

/-- `cv2.cvtColor(img, COLOR_BGR2HSV)` applied to a whole raster. -/
def imageToHsv (img : Image) : List (List HSV) :=
  img.map (List.map bgr2hsv)

/-- The per-pixel recoloring loop: for each coordinate where the mask is
true, overwrite hue and saturation with the target values, keeping the
original value channel; untouched elsewhere. -/
def applyMaskHS (hsvImg : List (List HSV)) (bmask : List (List Bool)) (th ts : Nat) :
    List (List HSV) :=
  List.zipWith (List.zipWith (fun q m => if m then HSV.mk th ts q.v else q)) hsvImg bmask

/-- `cv2.cvtColor(img, COLOR_HSV2BGR)` applied to a whole raster. -/
def hsvImageToBgr (l : List (List HSV)) : Image :=
  l.map (List.map hsv2bgr)

/-- The Python `recolor_segment_hsv` over the explicit store state: look
the path up (`os.path.exists`, then `cv2.imread`), check mask dimensions
against the image, coerce the mask to booleans, convert to HSV, fetch the
target hue/saturation via `hex_to_hsl`, run the masked overwrite loop,
convert back to BGR and overwrite the stored file.  Every `raise` returns
the store unchanged together with the corresponding `Err`. -/
def recolor_segment_hsv (store : Store) (image_path : String) (mask : List (List Int))
    (target_hex_color : String) : Store × Except Err String :=
  match store image_path with
  | none => (store, .error .fileNotFound)
  | some .bad => (store, .error .couldNotRead)
  | some (.img img) =>
    if mask.length = img.length ∧ width mask = width img then
      match hex_to_hsl target_hex_color with
      | .error e => (store, .error e)
      | .ok t =>
        let outHsv := applyMaskHS (imageToHsv img) (maskToBool mask) t.h t.s
        (updateStore store image_path (.img (hsvImageToBgr outHsv)), .ok image_path)
    else (store, .error .dimMismatch)

/-- The raster stored at a path, when the path holds a decodable image. -/
def getStoredImg (st : Store) (k : String) : Option Image :=
  match st k with
  | some (.img i) => some i
  | _ => none

/-- The pixel of a 2D list at row `r`, column `c`, if in range. -/
def pixAt (l : List (List α)) (r c : Nat) : Option α :=
  l[r]?.bind (fun row => row[c]?)

/-- An empty uploaded-images directory. -/
def emptyStore : Store := fun _ => none

/-- A one-pixel test store used to instantiate the theorems. -/
def testStore : Store :=
  fun k => if k = "img.png" then some (Blob.img [[BGR.mk 10 20 30]]) else none

/-- A one-pixel store whose pixel BGR (0, 1, 255) is not a fixed point of
the 8-bit BGR -> HSV -> BGR round trip. -/
def cexStore : Store :=
  fun k => if k = "img.png" then some (Blob.img [[BGR.mk 0 1 255]]) else none

/-- Rounding to nearest is monotone in the numerator. -/
theorem rnd_le_rnd (den : Nat) {num num' : Nat} (h : num ≤ num') :
    rnd num den ≤ rnd num' den :=
  Nat.div_le_div_right (by omega)

/-- Rounding an exact multiple recovers the factor. -/
theorem rnd_mul_self (v k : Nat) (hk : 0 < k) : rnd (v * k) k = v := by
  unfold rnd
  have h1 : 2 * (v * k) + k = 2 * k * v + k := by ring
  rw [h1, Nat.mul_add_div (by omega) v k, Nat.div_eq_of_lt (by omega)]
  omega

/-- Each interpolant of `hsv2bgr` is at most the value channel, so the max
channel of the reconstructed BGR pixel is exactly the value channel. -/
theorem hsv2bgr_max (q : HSV) :
    max (hsv2bgr q).b (max (hsv2bgr q).g (hsv2bgr q).r) = q.v := by
  have hp : rnd (q.v * (255 - q.s)) 255 ≤ q.v := by
    calc rnd (q.v * (255 - q.s)) 255 ≤ rnd (q.v * 255) 255 :=
          rnd_le_rnd 255 (Nat.mul_le_mul_left q.v (by omega))
      _ = q.v := rnd_mul_self q.v 255 (by omega)
  have hq : rnd (q.v * (7650 - q.s * (q.h % 30))) 7650 ≤ q.v := by
    calc rnd (q.v * (7650 - q.s * (q.h % 30))) 7650 ≤ rnd (q.v * 7650) 7650 :=
          rnd_le_rnd 7650 (Nat.mul_le_mul_left q.v (by omega))
      _ = q.v := rnd_mul_self q.v 7650 (by omega)
  have ht : rnd (q.v * (7650 - q.s * (30 - q.h % 30))) 7650 ≤ q.v := by
    calc rnd (q.v * (7650 - q.s * (30 - q.h % 30))) 7650 ≤ rnd (q.v * 7650) 7650 :=
          rnd_le_rnd 7650 (Nat.mul_le_mul_left q.v (by omega))
      _ = q.v := rnd_mul_self q.v 7650 (by omega)
  simp only [hsv2bgr]
  split_ifs <;> simp only [] <;> omega

/-- The value channel computed by `bgr2hsv` is the max channel. -/
theorem bgr2hsv_v (p : BGR) : (bgr2hsv p).v = max p.b (max p.g p.r) := rfl

/-- The value channel survives the HSV -> BGR -> HSV round trip exactly. -/
theorem v_roundtrip (q : HSV) : (bgr2hsv (hsv2bgr q)).v = q.v := by
  rw [bgr2hsv_v, hsv2bgr_max]

/-- Hues computed by `bgr2hsv` lie in OpenCV's default 8-bit range 0..179. -/
theorem bgr2hsv_h_lt (p : BGR) : (bgr2hsv p).h < 180 := by
  show (if max p.b (max p.g p.r) - min p.b (min p.g p.r) = 0 then 0 else _ % 180) < 180
  split
  · omega
  · exact Nat.mod_lt _ (by omega)

/-- Indexing into a mapped 2D list maps the indexed entry. -/
theorem pixAt_map (g : α → β) (l : List (List α)) (r c : Nat) :
    pixAt (l.map (List.map g)) r c = (pixAt l r c).map g := by
  unfold pixAt
  rw [List.getElem?_map]
  cases h : l[r]? <;> simp [List.getElem?_map]

/-- Indexing into an entrywise `zipWith` of 2D lists combines the two
indexed entries whenever both are in range, and is out of range otherwise. -/
theorem pixAt_zipWith (f : α → β → γ) (l₁ : List (List α)) (l₂ : List (List β)) (r c : Nat) :
    pixAt (List.zipWith (List.zipWith f) l₁ l₂) r c
      = (pixAt l₁ r c).bind fun a => (pixAt l₂ r c).map fun b => f a b := by
  unfold pixAt
  rw [List.getElem?_zipWith']
  cases h₁ : l₁[r]? with
  | none => simp
  | some row₁ =>
    cases h₂ : l₂[r]? with
    | none => simp
    | some row₂ =>
      simp only [Option.map_some', Option.some_bind]
      rw [List.getElem?_zipWith']
      cases hc₁ : row₁[c]? <;> cases hc₂ : row₂[c]? <;> simp

/-- Two rectangular 2D lists of equal shape are in range at the same
coordinates. -/
theorem pixAt_isSome_of_shape {l₁ : List (List α)} {l₂ : List (List β)} {r c : Nat}
    (hl : l₂.length = l₁.length) (hw : width l₂ = width l₁)
    (h₁ : isRect l₁) (h₂ : isRect l₂) {a : α} (h : pixAt l₁ r c = some a) :
    ∃ x, pixAt l₂ r c = some x := by
  unfold pixAt at h ⊢
  cases hr : l₁[r]? with
  | none => rw [hr] at h; simp at h
  | some row₁ =>
    rw [hr] at h
    simp only [Option.some_bind] at h
    obtain ⟨hrlt, hrow⟩ := List.getElem?_eq_some.mp hr
    have hlen₁ : row₁.length = width l₁ := h₁ row₁ (hrow ▸ List.getElem_mem hrlt)
    obtain ⟨hclt, -⟩ := List.getElem?_eq_some.mp h
    have hr2 : r < l₂.length := by omega
    have hlen₂ : (l₂[r]).length = width l₂ := h₂ _ (List.getElem_mem hr2)
    have hc2 : c < (l₂[r]).length := by omega
    exact ⟨l₂[r][c], by rw [List.getElem?_eq_getElem hr2, Option.some_bind,
      List.getElem?_eq_getElem hc2]⟩

/-- Every error produced by `hex_to_hsl` is one of the three hex-parsing
conditions: zero-step range, integer-parse failure, or channel-count
mismatch in `cvtColor`. -/
theorem hex_to_hsl_error_cases {hx : String} {e : Err}
    (h : hex_to_hsl hx = .error e) :
    e = .rangeStepZero ∨ e = .intParse ∨ e = .cvBadChannels := by
  unfold hex_to_hsl at h
  cases hch : hexChannels hx with
  | error e0 =>
    rw [hch] at h
    simp only [Except.error.injEq] at h
    subst h
    simp only [hexChannels] at hch
    split at hch
    · exact Or.inl (Except.error.inj hch).symm
    · split at hch
      · exact Or.inr (Or.inl (Except.error.inj hch).symm)
      · exact Except.noConfusion hch
  | ok rgb =>
    rw [hch] at h
    rcases rgb with _ | ⟨a, _ | ⟨b, _ | ⟨c, _ | ⟨d, tl⟩⟩⟩⟩
    · exact Or.inr (Or.inr (Except.error.inj h).symm)
    · exact Or.inr (Or.inr (Except.error.inj h).symm)
    · exact Or.inr (Or.inr (Except.error.inj h).symm)
    · exact Except.noConfusion h
    · exact Or.inr (Or.inr (Except.error.inj h).symm)

/-- Claim C1: for every image and every mask of matching dimensions, the
recolor operation leaves the brightness (V) component of every pixel
unchanged, masked or not: at every coordinate of the original image, the V
channel of the HSV representation of what is stored at the path after the
operation equals the V channel of the original pixel's HSV representation.
(On the failure paths the store is untouched, so this holds whether or not
the operation succeeds.) -/
theorem recolor_preserves_brightness
    (store : Store) (path : String) (mask : List (List Int)) (hexc : String) (img : Image)
    (himg : store path = some (Blob.img img))
    (hrect : isRect img) (hmrect : isRect mask)
    (hdl : mask.length = img.length) (hdw : width mask = width img) :
    ∀ r c p, pixAt img r c = some p →
      ((getStoredImg (recolor_segment_hsv store path mask hexc).1 path).bind
          (fun i => pixAt i r c)).map (fun q => (bgr2hsv q).v)
        = some ((bgr2hsv p).v) := by
  intro r c p hp
  unfold recolor_segment_hsv
  simp only [himg]
  rw [if_pos ⟨hdl, hdw⟩]
  cases hhex : hex_to_hsl hexc with
  | error e =>
    simp [getStoredImg, himg, hp]
  | ok t =>
    simp only []
    have hupd : getStoredImg (updateStore store path
        (Blob.img (hsvImageToBgr (applyMaskHS (imageToHsv img) (maskToBool mask) t.h t.s)))) path
        = some (hsvImageToBgr (applyMaskHS (imageToHsv img) (maskToBool mask) t.h t.s)) := by
      simp [getStoredImg, updateStore]
    simp only [hupd, Option.some_bind]
    obtain ⟨x, hx⟩ := pixAt_isSome_of_shape hdl hdw hrect hmrect hp
    simp only [hsvImageToBgr]
    rw [pixAt_map]
    simp only [applyMaskHS]
    rw [pixAt_zipWith]
    simp only [imageToHsv]
    rw [pixAt_map]
    simp only [maskToBool]
    rw [pixAt_map]
    rw [hp, hx]
    simp only [Option.map_some', Option.some_bind]
    rw [v_roundtrip]
    cases hb : decide (x ≠ 0) <;> simp

/-- Witness for C1: a concrete one-pixel image, an all-true mask and the
color "#FF0000"; the stored result's V channel equals the original's. -/
theorem recolor_preserves_brightness_witness :
    ((getStoredImg (recolor_segment_hsv testStore "img.png" [[(1 : Int)]] "#FF0000").1
        "img.png").bind (fun i => pixAt i 0 0)).map (fun q => (bgr2hsv q).v)
      = some ((bgr2hsv (BGR.mk 10 20 30)).v) :=
  recolor_preserves_brightness testStore "img.png" [[(1 : Int)]] "#FF0000"
    [[BGR.mk 10 20 30]] (by decide) (by decide) (by decide) (by decide) (by decide)
    0 0 (BGR.mk 10 20 30) (by decide)

/-- Claim C2: given an existing decodable image, a matching-dimension mask
and a valid target hex color, the recolor operation performs a full pass
over the HSV raster: every coordinate where the mask is nonzero gets its
hue and saturation overwritten with the target pair derived from the hex
color (keeping its brightness), and every coordinate where the mask is zero
keeps all three HSV components untouched; the stored result is exactly that
raster converted back to BGR. -/
theorem recolor_mask_exact
    (store : Store) (path : String) (mask : List (List Int)) (hexc : String)
    (img : Image) (t : HSV)
    (himg : store path = some (Blob.img img))
    (hdl : mask.length = img.length) (hdw : width mask = width img)
    (hhex : hex_to_hsl hexc = .ok t) :
    recolor_segment_hsv store path mask hexc
      = (updateStore store path
          (Blob.img (hsvImageToBgr (applyMaskHS (imageToHsv img) (maskToBool mask) t.h t.s))),
         .ok path)
    ∧ ∀ r c p x, pixAt img r c = some p → pixAt mask r c = some x →
        pixAt (applyMaskHS (imageToHsv img) (maskToBool mask) t.h t.s) r c
          = some (if x ≠ 0 then HSV.mk t.h t.s (bgr2hsv p).v else bgr2hsv p) := by
  constructor
  · unfold recolor_segment_hsv
    simp only [himg]
    rw [if_pos ⟨hdl, hdw⟩]
    simp only [hhex]
  · intro r c p x hp hx
    simp only [applyMaskHS]
    rw [pixAt_zipWith]
    simp only [imageToHsv]
    rw [pixAt_map]
    simp only [maskToBool]
    rw [pixAt_map]
    rw [hp, hx]
    simp only [Option.map_some', Option.some_bind]
    by_cases hxz : x = 0 <;> simp [hxz]

/-- Witness for C2: on a one-pixel image with mask entry 1 and color
"#FF0000" (hue 0, saturation 255), the HSV raster holds the overwritten
pixel. -/
theorem recolor_mask_exact_witness :
    pixAt (applyMaskHS (imageToHsv [[BGR.mk 10 20 30]]) (maskToBool [[(1 : Int)]])
        (HSV.mk 0 255 255).h (HSV.mk 0 255 255).s) 0 0
      = some (if (1 : Int) ≠ 0
          then HSV.mk (HSV.mk 0 255 255).h (HSV.mk 0 255 255).s (bgr2hsv (BGR.mk 10 20 30)).v
          else bgr2hsv (BGR.mk 10 20 30)) :=
  (recolor_mask_exact testStore "img.png" [[(1 : Int)]] "#FF0000" [[BGR.mk 10 20 30]]
      (HSV.mk 0 255 255) (by decide) (by decide) (by decide) (by decide)).2
    0 0 (BGR.mk 10 20 30) 1 (by decide) (by decide)

/-- Counterexample to claim C3 as stated: for the decodable one-pixel image
BGR (0, 1, 255) and the all-False mask [[0]], the recolor operation
succeeds but stores BGR (0, 0, 255): the 8-bit BGR -> HSV -> BGR round trip
is lossy, so the output is not byte-identical to the input. -/
theorem recolor_allfalse_not_byte_identical_cex :
    (recolor_segment_hsv cexStore "img.png" [[(0 : Int)]] "#FF0000").2 = Except.ok "img.png"
    ∧ getStoredImg (recolor_segment_hsv cexStore "img.png" [[(0 : Int)]] "#FF0000").1 "img.png"
        = some [[BGR.mk 0 0 255]]
    ∧ getStoredImg cexStore "img.png" = some [[BGR.mk 0 1 255]]
    ∧ BGR.mk 0 0 255 ≠ BGR.mk 0 1 255 := by decide

/-- Claim C3 amended: for a decodable image and a matching, entirely-False
mask, the recolor operation stores, at every coordinate, exactly the
BGR -> HSV -> BGR round trip of the original pixel; this round trip
preserves each pixel's brightness (max channel) but is not the identity in
general, so the output need not be byte-identical to the input. -/
theorem recolor_allfalse_roundtrip
    (store : Store) (path : String) (mask : List (List Int)) (hexc : String)
    (img : Image) (t : HSV)
    (himg : store path = some (Blob.img img))
    (hrect : isRect img) (hmrect : isRect mask)
    (hdl : mask.length = img.length) (hdw : width mask = width img)
    (hhex : hex_to_hsl hexc = .ok t)
    (hfalse : ∀ row ∈ mask, ∀ x ∈ row, x = 0) :
    (∀ r c p, pixAt img r c = some p →
      (getStoredImg (recolor_segment_hsv store path mask hexc).1 path).bind
          (fun i => pixAt i r c)
        = some (hsv2bgr (bgr2hsv p)))
    ∧ ∀ p : BGR,
        max (hsv2bgr (bgr2hsv p)).b (max (hsv2bgr (bgr2hsv p)).g (hsv2bgr (bgr2hsv p)).r)
          = max p.b (max p.g p.r) := by
  constructor
  · intro r c p hp
    unfold recolor_segment_hsv
    simp only [himg]
    rw [if_pos ⟨hdl, hdw⟩]
    simp only [hhex]
    have hupd : getStoredImg (updateStore store path
        (Blob.img (hsvImageToBgr (applyMaskHS (imageToHsv img) (maskToBool mask) t.h t.s)))) path
        = some (hsvImageToBgr (applyMaskHS (imageToHsv img) (maskToBool mask) t.h t.s)) := by
      simp [getStoredImg, updateStore]
    simp only [hupd, Option.some_bind]
    obtain ⟨x, hx⟩ := pixAt_isSome_of_shape hdl hdw hrect hmrect hp
    have hx0 : x = 0 := by
      unfold pixAt at hx
      cases hr : mask[r]? with
      | none => rw [hr] at hx; simp at hx
      | some row =>
        rw [hr] at hx
        simp only [Option.some_bind] at hx
        obtain ⟨hrl, hre⟩ := List.getElem?_eq_some.mp hr
        obtain ⟨hcl, hce⟩ := List.getElem?_eq_some.mp hx
        exact hfalse row (hre ▸ List.getElem_mem hrl) x (hce ▸ List.getElem_mem hcl)
    simp only [hsvImageToBgr]
    rw [pixAt_map]
    simp only [applyMaskHS]
    rw [pixAt_zipWith]
    simp only [imageToHsv]
    rw [pixAt_map]
    simp only [maskToBool]
    rw [pixAt_map]
    rw [hp, hx]
    simp [hx0]
  · intro p
    rw [hsv2bgr_max]
    exact bgr2hsv_v p

/-- Witness for the amended C3 at the concrete lossy pixel: the stored
result is the round trip of BGR (0, 1, 255). -/
theorem recolor_allfalse_roundtrip_witness :
    (getStoredImg (recolor_segment_hsv cexStore "img.png" [[(0 : Int)]] "#FF0000").1
        "img.png").bind (fun i => pixAt i 0 0)
      = some (hsv2bgr (bgr2hsv (BGR.mk 0 1 255))) :=
  (recolor_allfalse_roundtrip cexStore "img.png" [[(0 : Int)]] "#FF0000"
      [[BGR.mk 0 1 255]] (HSV.mk 0 255 255) (by decide) (by decide) (by decide)
      (by decide) (by decide) (by decide) (by decide)).1
    0 0 (BGR.mk 0 1 255) (by decide)

/-- Claim C4: for an existing, decodable image, the recolor operation fails
with the DimensionMismatch condition exactly when the mask's height or
width differs from the image's height or width, and in that case the store
is returned unchanged (no write). -/
theorem recolor_dim_mismatch_iff
    (store : Store) (path : String) (mask : List (List Int)) (hexc : String) (img : Image)
    (himg : store path = some (Blob.img img)) :
    ((recolor_segment_hsv store path mask hexc).2 = Except.error Err.dimMismatch
      ↔ ¬(mask.length = img.length ∧ width mask = width img))
    ∧ ((recolor_segment_hsv store path mask hexc).2 = Except.error Err.dimMismatch →
        (recolor_segment_hsv store path mask hexc).1 = store) := by
  unfold recolor_segment_hsv
  simp only [himg]
  by_cases hg : (mask.length = img.length ∧ width mask = width img)
  · rw [if_pos hg]
    cases hhex : hex_to_hsl hexc with
    | error e =>
      have hne : e ≠ Err.dimMismatch := by
        rcases hex_to_hsl_error_cases hhex with h1 | h1 | h1 <;> subst h1 <;> decide
      exact ⟨iff_of_false (fun h => hne (Except.error.inj h)) (not_not_intro hg),
        fun _ => rfl⟩
    | ok t =>
      exact ⟨iff_of_false (fun h => Except.noConfusion h) (not_not_intro hg),
        fun h => Except.noConfusion h⟩
  · rw [if_neg hg]
    exact ⟨iff_of_true rfl hg, fun _ => rfl⟩

/-- Witness for C4: a 2-row mask against a 1-row image. -/
theorem recolor_dim_mismatch_iff_witness :
    ((recolor_segment_hsv testStore "img.png" [[(1 : Int)], [(2 : Int)]] "#FF0000").2
        = Except.error Err.dimMismatch
      ↔ ¬([[(1 : Int)], [(2 : Int)]].length = ([[BGR.mk 10 20 30]] : Image).length
          ∧ width [[(1 : Int)], [(2 : Int)]] = width ([[BGR.mk 10 20 30]] : Image)))
    ∧ ((recolor_segment_hsv testStore "img.png" [[(1 : Int)], [(2 : Int)]] "#FF0000").2
        = Except.error Err.dimMismatch →
      (recolor_segment_hsv testStore "img.png" [[(1 : Int)], [(2 : Int)]] "#FF0000").1
        = testStore) :=
  recolor_dim_mismatch_iff testStore "img.png" [[(1 : Int)], [(2 : Int)]] "#FF0000"
    [[BGR.mk 10 20 30]] (by decide)

/-- Counterexample to claim C5 as stated: the malformed (wrong-length,
9-digit) hex string "#000000000" does not fail at all: the parse splits it
into three 3-digit chunks and `hex_to_hsl` accepts it. -/
theorem wrong_length_hex_accepted_cex :
    hex_to_hsl "#000000000" = Except.ok (HSV.mk 0 0 0) := by decide

/-- Claim C5 amended: a hex string containing a chunk that fails base-16
integer parsing (non-hex characters, e.g. "#ZZZ") fails with the
InvalidColorFormat ValueError, and whenever `hex_to_hsl` fails during a
recolor operation the store is returned unchanged (no write); a
wrong-length hex string, however, is not reliably rejected (a 9-digit
string is silently accepted, see the counterexample). -/
theorem hex_parse_error_no_write
    (store : Store) (path : String) (mask : List (List Int)) (hexc : String)
    (img : Image) (e : Err)
    (himg : store path = some (Blob.img img))
    (hdl : mask.length = img.length) (hdw : width mask = width img)
    (hhex : hex_to_hsl hexc = .error e) :
    recolor_segment_hsv store path mask hexc = (store, Except.error e)
    ∧ hex_to_hsl "#ZZZ" = Except.error Err.intParse := by
  constructor
  · unfold recolor_segment_hsv
    simp only [himg]
    rw [if_pos ⟨hdl, hdw⟩]
    simp only [hhex]
  · decide

/-- Witness for the amended C5: recoloring with "#ZZZ" raises the
InvalidColorFormat ValueError and leaves the store untouched. -/
theorem hex_parse_error_no_write_witness :
    recolor_segment_hsv testStore "img.png" [[(1 : Int)]] "#ZZZ"
      = (testStore, Except.error Err.intParse)
    ∧ hex_to_hsl "#ZZZ" = Except.error Err.intParse :=
  hex_parse_error_no_write testStore "img.png" [[(1 : Int)]] "#ZZZ"
    [[BGR.mk 10 20 30]] Err.intParse (by decide) (by decide) (by decide) (by decide)

/-- Claim C6: the hue convention is fixed and consistent across the
pipeline: every hue/saturation pair `hex_to_hsl` returns is produced by the
very `bgr2hsv` conversion the recolor pass applies to the image, its hue
lies in the OpenCV default range 0..179, and every image hue it is compared
with or stored next to lies in 0..179 as well. -/
theorem hue_convention_consistent (hexc : String) (t : HSV)
    (hhex : hex_to_hsl hexc = .ok t) :
    (∃ p : BGR, t = bgr2hsv p) ∧ t.h < 180 ∧ ∀ q : BGR, (bgr2hsv q).h < 180 := by
  have hexp : ∃ p : BGR, t = bgr2hsv p := by
    unfold hex_to_hsl at hhex
    cases hch : hexChannels hexc with
    | error e0 =>
      rw [hch] at hhex
      exact Except.noConfusion hhex
    | ok rgb =>
      rw [hch] at hhex
      rcases rgb with _ | ⟨a, _ | ⟨b, _ | ⟨c, _ | ⟨d, tl⟩⟩⟩⟩
      · exact Except.noConfusion hhex
      · exact Except.noConfusion hhex
      · exact Except.noConfusion hhex
      · exact ⟨_, (Except.ok.inj hhex).symm⟩
      · exact Except.noConfusion hhex
  obtain ⟨p, hp⟩ := hexp
  refine ⟨⟨p, hp⟩, ?_, fun q => bgr2hsv_h_lt q⟩
  rw [hp]
  exact bgr2hsv_h_lt p

/-- Witness for C6 at the color "#FF0000" (hue 0, saturation 255). -/
theorem hue_convention_consistent_witness :
    (∃ p : BGR, HSV.mk 0 255 255 = bgr2hsv p) ∧ (HSV.mk 0 255 255).h < 180
    ∧ ∀ q : BGR, (bgr2hsv q).h < 180 :=
  hue_convention_consistent "#FF0000" (HSV.mk 0 255 255) (by decide)

/-- Claim C7: the recolor operation is atomic with respect to storage: on
every failure the store is returned unchanged (the raster is fully
computed in memory before any write), and on success the store changes
only at the written path, which receives the fully computed raster. -/
theorem recolor_atomic (store : Store) (path : String) (mask : List (List Int))
    (hexc : String) :
    (∀ e, (recolor_segment_hsv store path mask hexc).2 = Except.error e →
      (recolor_segment_hsv store path mask hexc).1 = store)
    ∧ ∀ ret, (recolor_segment_hsv store path mask hexc).2 = Except.ok ret →
        ∃ img2, (recolor_segment_hsv store path mask hexc).1
            = updateStore store path (Blob.img img2)
          ∧ ∀ k, k ≠ path → (recolor_segment_hsv store path mask hexc).1 k = store k := by
  cases hst : store path with
  | none =>
    have hr : recolor_segment_hsv store path mask hexc
        = (store, Except.error Err.fileNotFound) := by
      unfold recolor_segment_hsv
      simp only [hst]
    rw [hr]
    exact ⟨fun e h => rfl, fun ret h => Except.noConfusion h⟩
  | some bl =>
    cases bl with
    | bad =>
      have hr : recolor_segment_hsv store path mask hexc
          = (store, Except.error Err.couldNotRead) := by
        unfold recolor_segment_hsv
        simp only [hst]
      rw [hr]
      exact ⟨fun e h => rfl, fun ret h => Except.noConfusion h⟩
    | img img =>
      by_cases hg : (mask.length = img.length ∧ width mask = width img)
      · cases hhex : hex_to_hsl hexc with
        | error e0 =>
          have hr : recolor_segment_hsv store path mask hexc = (store, Except.error e0) := by
            unfold recolor_segment_hsv
            simp only [hst]
            rw [if_pos hg]
            simp only [hhex]
          rw [hr]
          exact ⟨fun e h => rfl, fun ret h => Except.noConfusion h⟩
        | ok t =>
          have hr : recolor_segment_hsv store path mask hexc
              = (updateStore store path (Blob.img (hsvImageToBgr
                  (applyMaskHS (imageToHsv img) (maskToBool mask) t.h t.s))), Except.ok path) := by
            unfold recolor_segment_hsv
            simp only [hst]
            rw [if_pos hg]
            simp only [hhex]
          rw [hr]
          refine ⟨fun e h => Except.noConfusion h, fun ret h => ⟨_, rfl, fun k hk => ?_⟩⟩
          simp [updateStore, hk]
      · have hr : recolor_segment_hsv store path mask hexc
            = (store, Except.error Err.dimMismatch) := by
          unfold recolor_segment_hsv
          simp only [hst]
          rw [if_neg hg]
        rw [hr]
        exact ⟨fun e h => rfl, fun ret h => Except.noConfusion h⟩

/-- Witness for C7: a failing lookup leaves the empty store unchanged. -/
theorem recolor_atomic_witness :
    (recolor_segment_hsv emptyStore "a.png" [] "#FF0000").1 = emptyStore :=
  (recolor_atomic emptyStore "a.png" [] "#FF0000").1 Err.fileNotFound (by decide)

/-- Claim C8: the operation fails with the ImageNotFound condition when the
path does not resolve to stored bytes, with the ImageDecodeError condition
when the stored bytes cannot be decoded as a raster, and the four surfaced
error kinds (InvalidColorFormat, ImageNotFound, ImageDecodeError,
DimensionMismatch) are pairwise distinct, identifiable conditions. -/
theorem recolor_error_kinds_distinct (store : Store) (path : String)
    (mask : List (List Int)) (hexc : String) :
    (store path = none →
      recolor_segment_hsv store path mask hexc = (store, Except.error Err.fileNotFound))
    ∧ (store path = some Blob.bad →
      recolor_segment_hsv store path mask hexc = (store, Except.error Err.couldNotRead))
    ∧ List.Pairwise (fun a b => a ≠ b)
        [Err.intParse, Err.fileNotFound, Err.couldNotRead, Err.dimMismatch] := by
  refine ⟨fun h => ?_, fun h => ?_, by decide⟩
  · unfold recolor_segment_hsv
    rw [h]
  · unfold recolor_segment_hsv
    rw [h]

/-- Witness for C8: looking up a missing path fails with ImageNotFound. -/
theorem recolor_error_kinds_distinct_witness :
    recolor_segment_hsv emptyStore "b.png" [] "#00FF00"
      = (emptyStore, Except.error Err.fileNotFound) :=
  (recolor_error_kinds_distinct emptyStore "b.png" [] "#00FF00").1 rfl

/-- Claim C9: a 3-digit hex string is parsed one hex digit per channel,
each in the range 0..15, with no shorthand expansion to 0..255: "#FFF"
yields the channel tuple (15, 15, 15) -- nearly black -- and its HSV value
is that of BGR (15, 15, 15), different from white "#FFFFFF". -/
theorem hex3_single_digit_channels :
    hexChannels "#FFF" = Except.ok [15, 15, 15]
    ∧ hex_to_hsl "#FFF" = Except.ok (bgr2hsv (BGR.mk 15 15 15))
    ∧ hex_to_hsl "#FFF" ≠ hex_to_hsl "#FFFFFF" := by decide

/-- Claim C10: the recolor operation accepts numeric (non-boolean) masks:
mask entries are consumed only through the `astype(bool)` zero/nonzero
coercion, so the operation behaves identically on any integer mask and on
its 0/1 boolean coercion (in particular a nonzero-valued mask of matching
dimensions is processed, not rejected). -/
theorem mask_astype_bool_coercion (store : Store) (path : String)
    (mask : List (List Int)) (hexc : String) :
    recolor_segment_hsv store path mask hexc
      = recolor_segment_hsv store path
          (mask.map (List.map (fun x => if x = 0 then (0 : Int) else 1))) hexc := by
  have hlen : (mask.map (List.map (fun x => if x = 0 then (0 : Int) else 1))).length
      = mask.length := List.length_map ..
  have hwid : width (mask.map (List.map (fun x => if x = 0 then (0 : Int) else 1)))
      = width mask := by
    cases mask <;> simp [width]
  have hmb : maskToBool (mask.map (List.map (fun x => if x = 0 then (0 : Int) else 1)))
      = maskToBool mask := by
    unfold maskToBool
    rw [List.map_map]
    have hfun : List.map (fun x : Int => decide (x ≠ 0)) ∘
          List.map (fun x : Int => if x = 0 then (0 : Int) else 1)
        = List.map (fun x : Int => decide (x ≠ 0)) := by
      funext row
      simp only [Function.comp_apply, List.map_map]
      apply List.map_congr_left
      intro x _
      by_cases hx : x = 0 <;> simp [hx]
    rw [hfun]
  unfold recolor_segment_hsv
  cases store path with
  | none => rfl
  | some bl =>
    cases bl with
    | bad => rfl
    | img img =>
      rw [hlen, hwid, hmb]
